import Mathlib

/-!
Verification development for the presswatch press-release aggregation
pipeline.  The per-source Python scripts (getNokiaPRDateUpdated.py,
getCalixPRLoadMoreDateOK.py, getCienaPR2025.py, getEkinopsPR2025.py,
getRibbonPR2025.py, getSmartopticsPR2025.py, getZTEPR2025.py,
getZhonePR2025.py, summarize_press_releases_external.py) are shallowly
embedded here: pure functions become Lean functions, pandas dataframes
become lists of records, network fetches and AI calls become explicit
parameters at the adapter boundary, and Python exceptions become `Option`
or `Except` results.
-/

namespace Presswatch

/-! ### Python string primitives

`pySpace` models the character class of Python's `str.strip()` and of the
regex `\s` used by `datetime.strptime` (ASCII whitespace). -/

def pySpace (c : Char) : Bool :=
  c = ' ' || c = '\t' || c = '\n' || c = '\r' || c = '\x0b' || c = '\x0c'

/-- Drop a maximal trailing run of characters satisfying `p`. -/
def dropWhileEnd (p : Char → Bool) : List Char → List Char
  | [] => []
  | a :: t =>
    let r := dropWhileEnd p t
    if r.isEmpty && p a then [] else a :: r

/-- Model of Python `str.strip()` on the character list. -/
def pyStripList (l : List Char) : List Char :=
  dropWhileEnd pySpace (l.dropWhile pySpace)

/-- Model of Python `str.strip()`. -/
def pyStrip (s : String) : String :=
  ⟨pyStripList s.data⟩

/-- Model of Python `s.split("|")[0]`: the characters before the first `|`
(the whole string when no `|` occurs). -/
def beforeBar (s : String) : String :=
  ⟨s.data.takeWhile (fun c => c ≠ '|')⟩

/-- The value of an ASCII digit character (the `\d` class of the strptime
regex followed by `int()`). -/
def digitVal (c : Char) : Option Nat :=
  if c = '0' then some 0 else if c = '1' then some 1 else if c = '2' then some 2
  else if c = '3' then some 3 else if c = '4' then some 4 else if c = '5' then some 5
  else if c = '6' then some 6 else if c = '7' then some 7 else if c = '8' then some 8
  else if c = '9' then some 9 else none

/-! ### Calendar dates

A parsed calendar date, as produced by `datetime.strptime` with a
date-only format.  `datetime` comparison on dates with zero time parts is
lexicographic on `(year, month, day)`. -/

structure YMD where
  year : Nat
  month : Nat
  day : Nat
deriving DecidableEq, Repr

def isLeap (y : Nat) : Bool :=
  y % 4 = 0 && (y % 100 ≠ 0 || y % 400 = 0)

def daysInMonth (y m : Nat) : Nat :=
  if m = 2 then (if isLeap y then 29 else 28)
  else if m = 4 || m = 6 || m = 9 || m = 11 then 30
  else 31

/-- Constructing `datetime(y, m, d)` validates the calendar date (e.g.
February 30 raises `ValueError`); `MINYEAR` is 1.  The month and day
ranges 1..12 and 1..31 are already enforced by the `strptime` regex, but
the day must also fit the month. -/
def mkDate (y m d : Nat) : Option YMD :=
  if 1 ≤ y ∧ d ≤ daysInMonth y m then some ⟨y, m, d⟩ else none

/-- The dates producible by a successful `strptime` with the formats at
hand: a real calendar date with a four-digit year. -/
def YMD.Valid (dd : YMD) : Prop :=
  1 ≤ dd.year ∧ dd.year ≤ 9999 ∧ 1 ≤ dd.month ∧ dd.month ≤ 12 ∧
    1 ≤ dd.day ∧ dd.day ≤ daysInMonth dd.year dd.month

/-- Strict `datetime` comparison restricted to dates. -/
def YMD.lt (a b : YMD) : Bool :=
  a.year < b.year ||
    (a.year = b.year && (a.month < b.month ||
      (a.month = b.month && a.day < b.day)))

/-! ### strptime field parsers

`datetime.strptime` compiles the format into a regex (matched
case-insensitively and anchored at the start; trailing unconverted text
is an error).  `%Y` is exactly four digits; `%d` is `3[01]|[12]\d|0[1-9]|[1-9]`;
`%m` is `1[0-2]|0[1-9]|[1-9]`; a literal space is `\s+`; `%B`/`%b` are
alternations of the full/abbreviated English month names. -/

def pYear : List Char → Option (Nat × List Char)
  | a :: b :: c :: d :: rest =>
    match digitVal a, digitVal b, digitVal c, digitVal d with
    | some x, some y, some z, some w => some (x * 1000 + y * 100 + z * 10 + w, rest)
    | _, _, _, _ => none
  | _ => none

def pDay : List Char → Option (Nat × List Char)
  | [] => none
  | [a] =>
    match digitVal a with
    | some x => if 1 ≤ x then some (x, []) else none
    | none => none
  | a :: b :: rest =>
    match digitVal a with
    | none => none
    | some x =>
      match digitVal b with
      | some y =>
        if x = 3 ∧ y ≤ 1 then some (30 + y, rest)
        else if x = 1 ∨ x = 2 then some (10 * x + y, rest)
        else if x = 0 ∧ 1 ≤ y then some (y, rest)
        else if 1 ≤ x then some (x, b :: rest)
        else none
      | none => if 1 ≤ x then some (x, b :: rest) else none

def pMonthNum : List Char → Option (Nat × List Char)
  | [] => none
  | [a] =>
    match digitVal a with
    | some x => if 1 ≤ x then some (x, []) else none
    | none => none
  | a :: b :: rest =>
    match digitVal a with
    | none => none
    | some x =>
      match digitVal b with
      | some y =>
        if x = 1 ∧ y ≤ 2 then some (10 + y, rest)
        else if x = 0 ∧ 1 ≤ y then some (y, rest)
        else if 1 ≤ x then some (x, b :: rest)
        else none
      | none => if 1 ≤ x then some (x, b :: rest) else none

/-- One-or-more whitespace characters (a literal space in a strptime
format compiles to `\s+`). -/
def pWs1 : List Char → Option (List Char)
  | [] => none
  | a :: rest =>
    if pySpace a then some (rest.dropWhile pySpace) else none

def pLit (c : Char) : List Char → Option (List Char)
  | [] => none
  | a :: rest => if a = c then some rest else none

/-- Case-insensitively strip the name `name` (given in lowercase) from the
front of `l`. -/
def stripNameCI (name : List Char) (l : List Char) : Option (List Char) :=
  match name, l with
  | [], rest => some rest
  | _ :: _, [] => none
  | n :: ns, a :: as_ => if a.toLower = n then stripNameCI ns as_ else none

def monthsFull : List (List Char × Nat) :=
  [("january".data, 1), ("february".data, 2), ("march".data, 3),
   ("april".data, 4), ("may".data, 5), ("june".data, 6),
   ("july".data, 7), ("august".data, 8), ("september".data, 9),
   ("october".data, 10), ("november".data, 11), ("december".data, 12)]

def monthsAbbr : List (List Char × Nat) :=
  [("jan".data, 1), ("feb".data, 2), ("mar".data, 3), ("apr".data, 4),
   ("may".data, 5), ("jun".data, 6), ("jul".data, 7), ("aug".data, 8),
   ("sep".data, 9), ("oct".data, 10), ("nov".data, 11), ("dec".data, 12)]

def pMonthName (table : List (List Char × Nat)) (l : List Char) :
    Option (Nat × List Char) :=
  match table with
  | [] => none
  | (name, num) :: rest =>
    match stripNameCI name l with
    | some r => some (num, r)
    | none => pMonthName rest l

/-! ### strptime, one definition per format shape used by the repository -/

/-- `datetime.strptime(s, "%Y<sep>%m<sep>%d")` for a literal separator. -/
def parseYmdSep (sep : Char) (s : String) : Option YMD :=
  match pYear s.data with
  | none => none
  | some (y, r1) =>
    match pLit sep r1 with
    | none => none
    | some r2 =>
      match pMonthNum r2 with
      | none => none
      | some (m, r3) =>
        match pLit sep r3 with
        | none => none
        | some r4 =>
          match pDay r4 with
          | none => none
          | some (d, r5) => if r5.isEmpty then mkDate y m d else none

/-- `datetime.strptime(s, "%B %d, %Y")` / `"%b %d, %Y"` for a month-name
table. -/
def parseMonthNameFirst (table : List (List Char × Nat)) (s : String) : Option YMD :=
  match pMonthName table s.data with
  | none => none
  | some (m, r1) =>
    match pWs1 r1 with
    | none => none
    | some r2 =>
      match pDay r2 with
      | none => none
      | some (d, r3) =>
        match pLit ',' r3 with
        | none => none
        | some r4 =>
          match pWs1 r4 with
          | none => none
          | some r5 =>
            match pYear r5 with
            | none => none
            | some (y, r6) => if r6.isEmpty then mkDate y m d else none

/-- `datetime.strptime(s, "%Y-%m-%d")`. -/
def strptimeYmd (s : String) : Option YMD := parseYmdSep '-' s

/-- `datetime.strptime(s, "%Y/%m/%d")`. -/
def strptimeYmdSlash (s : String) : Option YMD := parseYmdSep '/' s

/-- `datetime.strptime(s, "%Y.%m.%d")`. -/
def strptimeYmdDot (s : String) : Option YMD := parseYmdSep '.' s

/-- `datetime.strptime(s, "%B %d, %Y")`. -/
def strptimeBdY (s : String) : Option YMD := parseMonthNameFirst monthsFull s

/-- `datetime.strptime(s, "%b %d, %Y")`. -/
def strptimebdY (s : String) : Option YMD := parseMonthNameFirst monthsAbbr s

/-- `datetime.strptime(s, "%d %B %Y")`. -/
def strptimedBY (s : String) : Option YMD :=
  match pDay s.data with
  | none => none
  | some (d, r1) =>
    match pWs1 r1 with
    | none => none
    | some r2 =>
      match pMonthName monthsFull r2 with
      | none => none
      | some (m, r3) =>
        match pWs1 r3 with
        | none => none
        | some r4 =>
          match pYear r4 with
          | none => none
          | some (y, r5) => if r5.isEmpty then mkDate y m d else none

/-- `datetime.strptime(s, "%d%b%Y")` (compact, no separators). -/
def strptimedbYCompact (s : String) : Option YMD :=
  match pDay s.data with
  | none => none
  | some (d, r1) =>
    match pMonthName monthsAbbr r1 with
    | none => none
    | some (m, r2) =>
      match pYear r2 with
      | none => none
      | some (y, r3) => if r3.isEmpty then mkDate y m d else none

/-! ### strftime("%Y-%m-%d") -/

def pad2 (n : Nat) : List Char :=
  [Nat.digitChar (n / 10 % 10), Nat.digitChar (n % 10)]

def pad4 (n : Nat) : List Char :=
  [Nat.digitChar (n / 1000 % 10), Nat.digitChar (n / 100 % 10),
   Nat.digitChar (n / 10 % 10), Nat.digitChar (n % 10)]

/-- `d.strftime("%Y-%m-%d")`: zero-padded ISO calendar date. -/
def fmtISO (d : YMD) : String :=
  ⟨pad4 d.year ++ '-' :: pad2 d.month ++ '-' :: pad2 d.day⟩

/-- Whether a string has the exact shape `YYYY-MM-DD`. -/
def isISOFormat (s : String) : Bool :=
  match s.data with
  | [a, b, c, d, h1, e, f, h2, g, k] =>
    a.isDigit && b.isDigit && c.isDigit && d.isDigit && h1 = '-' &&
    e.isDigit && f.isDigit && h2 = '-' && g.isDigit && k.isDigit
  | _ => false

/-! ### The embedded-date regular expression of getCienaPR2025.py

`DATE_RE = re.compile(r"(January|…|December)\s+\d{1,2},\s+\d{4}", re.I)`;
`DATE_RE.search` returns the leftmost match.  At a fixed position the
regex needs no backtracking: no month name is a prefix of another, and a
digit can never satisfy the comma that must follow the day. -/

/-- Match `\d{1,2},` (greedy day digits followed by the literal comma;
no usable backtracking exists: when two digits are present, the one-digit
alternative would need the second digit to be the comma). -/
def pDay12Comma : List Char → Option (List Char)
  | a :: b :: rest =>
    if a.isDigit && b.isDigit then pLit ',' rest
    else if a.isDigit then pLit ',' (b :: rest)
    else none
  | _ => none

/-- Try to match `DATE_RE` starting exactly at the head of `l`, returning
the remainder after the match. -/
def dateREHere (l : List Char) : Option (List Char) :=
  match pMonthName monthsFull l with
  | none => none
  | some (_, r1) =>
    match pWs1 r1 with
    | none => none
    | some r2 =>
      match pDay12Comma r2 with
      | none => none
      | some r3 =>
        match pWs1 r3 with
        | none => none
        | some r4 =>
          match r4 with
          | a :: b :: c :: d :: rest =>
            if a.isDigit && b.isDigit && c.isDigit && d.isDigit then some rest
            else none
          | _ => none

/-- `DATE_RE.search(s).group(0)`: the leftmost matched substring. -/
def dateRESearchList : List Char → Option (List Char)
  | [] => none
  | a :: t =>
    match dateREHere (a :: t) with
    | some rest => some ((a :: t).take ((a :: t).length - rest.length))
    | none => dateRESearchList t

def dateRESearch (s : String) : Option String :=
  (dateRESearchList s.data).map (fun l => ⟨l⟩)

/-! ### The per-source normalize_date functions -/

/-- The format chain of getNokiaPRDateUpdated.py's normalize_date, applied
to `raw = date_str.split("|")[0].strip()`: try `%d%b%Y`, then
`%B %d, %Y`, `%d %B %Y`, `%Y-%m-%d`; on failure return `raw.strip()`. -/
def nokiaCore (raw : String) : String :=
  match strptimedbYCompact raw with
  | some d => fmtISO d
  | none =>
    match strptimeBdY raw with
    | some d => fmtISO d
    | none =>
      match strptimedBY raw with
      | some d => fmtISO d
      | none =>
        match strptimeYmd raw with
        | some d => fmtISO d
        | none => pyStrip raw

/-- normalize_date of getNokiaPRDateUpdated.py: guard falsy / "(No date)",
keep the segment before the first `|`, and run the format chain. -/
def nokia_normalize_date (s : String) : String :=
  if s = "" || s = "(No date)" then s
  else nokiaCore (pyStrip (beforeBar s))

/-- Python `s.replace("Sept", "Sep")` (left-to-right, non-overlapping). -/
def replaceSeptList : List Char → List Char
  | 'S' :: 'e' :: 'p' :: 't' :: rest => 'S' :: 'e' :: 'p' :: replaceSeptList rest
  | c :: rest => c :: replaceSeptList rest
  | [] => []

/-- normalize_date of getCalixPRLoadMoreDateOK.py: guard falsy, strip and
replace "Sept" with "Sep", then try `%B %d, %Y`, `%b %d, %Y`,
`%Y-%m-%d`; on failure return the (re-stripped) text. -/
def calix_normalize_date (s : String) : String :=
  if s = "" then ""
  else
    let t : String := ⟨replaceSeptList (pyStrip s).data⟩
    match strptimeBdY t with
    | some d => fmtISO d
    | none =>
      match strptimebdY t with
      | some d => fmtISO d
      | none =>
        match strptimeYmd t with
        | some d => fmtISO d
        | none => pyStrip t

/-- normalize_date of getCienaPR2025.py.  The format loop catches its
exceptions, but the final embedded-substring branch calls
`datetime.strptime(m.group(0), "%B %d, %Y")` outside any `try`: a
substring that matches `DATE_RE` but fails `strptime` (day 0, day out of
range for the month, year 0000) raises `ValueError` out of the function;
that uncaught exception is modelled as `none`. -/
def cienaCore (s : String) : Option String :=
  match strptimeYmd s with
  | some d => some (fmtISO d)
  | none =>
    match strptimeYmdSlash s with
    | some d => some (fmtISO d)
    | none =>
      match strptimeBdY s with
      | some d => some (fmtISO d)
      | none =>
        match strptimebdY s with
        | some d => some (fmtISO d)
        | none =>
          match dateRESearch s with
          | some sub => (strptimeBdY sub).map fmtISO
          | none => some s

/-- normalize_date of getCienaPR2025.py: `s = (s or "").strip()` and then
the fallback chain of `cienaCore`. -/
def ciena_normalize_date (s0 : String) : Option String :=
  cienaCore (pyStrip s0)

/-- normalize_date of getRibbonPR2025.py: `%B %d, %Y` or the stripped
original. -/
def ribbon_normalize_date (s : String) : String :=
  match strptimeBdY (pyStrip s) with
  | some d => fmtISO d
  | none => pyStrip s

/-- normalize_date of getEkinopsPR2025.py: guard falsy, `%d %B %Y` or the
stripped original. -/
def ekinops_normalize_date (s : String) : String :=
  if s = "" then ""
  else
    match strptimedBY (pyStrip s) with
    | some d => fmtISO d
    | none => pyStrip s

/-- normalize_date of getSmartopticsPR2025.py: `%Y-%m-%d` (re-emitted) or
the stripped original. -/
def smartoptics_normalize_date (s : String) : String :=
  match strptimeYmd (pyStrip s) with
  | some d => fmtISO d
  | none => pyStrip s

/-- normalize_date of getZTEPR2025.py: `%Y-%m-%d`, `%Y.%m.%d`,
`%b %d, %Y` or the stripped original. -/
def zte_normalize_date (s : String) : String :=
  match strptimeYmd (pyStrip s) with
  | some d => fmtISO d
  | none =>
    match strptimeYmdDot (pyStrip s) with
    | some d => fmtISO d
    | none =>
      match strptimebdY (pyStrip s) with
      | some d => fmtISO d
      | none => pyStrip s

/-! ### The master store and save_to_master

A row of press_releases_master.csv.  The two derived columns are
populated later by summarize_press_releases_external.py and default to
the empty cell. -/

structure Row where
  id : String
  company : String
  title : String
  link : String
  date : String
  fetched_at : String
  summary_ai : String := ""
  impact_for_zhone : String := ""
deriving DecidableEq, Repr

/-- Membership of a row's `(company, title)` key among the master rows:
the `_merge == "both"` outcome of
`pd.merge(new, master[["company","title"]], on=["company","title"],
how="left", indicator=True)` for that row. -/
def keyInMaster (master : List Row) (r : Row) : Bool :=
  master.any (fun m => m.company == r.company && m.title == r.title)

/-- The store contents written by `save_to_master` (shared, up to cosmetic
differences, by all per-source scripts; lines cited from
getCienaPR2025.py / getZhonePR2025.py / getNokiaPRDateUpdated.py /
getZTEPR2025.py).  An empty batch returns without rewriting; an empty
master takes the batch as-is; otherwise the left-merge keeps the
`left_only` rows of the batch (in batch order, once each) and appends
them after the unchanged master rows.  Variants that return early when
nothing is new leave the same store contents. -/
def save_to_master (master df_new : List Row) : List Row :=
  if df_new.isEmpty then master
  else if master.isEmpty then df_new
  else master ++ df_new.filter (fun r => !keyInMaster master r)

/-! ### Crawl state shared by the pagination loops -/

structure CrawlState where
  rows : List Row
  seen : List String
  stop : Bool
  requested : Nat
  counter : Nat
deriving DecidableEq, Repr

def initState : CrawlState := ⟨[], [], false, 0, 0⟩

/-! ### getEkinopsPR2025.py pagination

An item is one `div.sppb-article-info-wrap`; the HTML selection and
`urljoin` belong to the out-of-scope adapter, so `link` is the already
resolved URL (`none` when the anchor or its href is missing, which the
code skips) and `dateText` is the date element's text (`""` when the
element is missing).  `gen` supplies the `uuid4` stream (`gen k` is the
k-th fresh id) and `now` the `fetched_at` timestamp. -/

structure EkItem where
  link : Option String
  dateText : String
  title : String
deriving DecidableEq, Repr

/-- One iteration of the Ekinops item loop: skip missing/empty hrefs and
already seen links; otherwise normalize the date; a parse `< cutoff`
sets the stop flag (breaking the loop), a parse `≥ cutoff` appends the
row, and an unparsed date falls through (the record is dropped). -/
def ekStep (gen : Nat → String) (now : String) (cutoff : YMD)
    (st : CrawlState) (it : EkItem) : CrawlState :=
  if st.stop then st
  else
    match it.link with
    | none => st
    | some link =>
      if link = "" then st
      else if st.seen.contains link then st
      else
        let st1 := { st with seen := link :: st.seen }
        let dateStr := ekinops_normalize_date it.dateText
        match strptimeYmd dateStr with
        | some d =>
          if YMD.lt d cutoff then { st1 with stop := true }
          else
            { st1 with
              rows := st1.rows ++
                [⟨gen st1.counter, "Ekinops", it.title, link, dateStr, now, "", ""⟩],
              counter := st1.counter + 1 }
        | none => st1

def ekPage (gen : Nat → String) (now : String) (cutoff : YMD)
    (st : CrawlState) (pg : List EkItem) : CrawlState :=
  pg.foldl (ekStep gen now cutoff) st

/-- The Ekinops `while True` pagination loop over the successive pages
the server would return: request a page, stop if it is empty, process
its items, stop if a record older than the cutoff was reached. -/
def ekCrawl (gen : Nat → String) (now : String) (cutoff : YMD) :
    CrawlState → List (List EkItem) → CrawlState
  | st, [] => st
  | st, pg :: rest =>
    let st1 := ekPage gen now cutoff { st with requested := st.requested + 1 } pg
    if pg.isEmpty || st1.stop then st1
    else ekCrawl gen now cutoff st1 rest

/-- Tail of getEkinopsPR2025.py `main`: the collected rows are handed to
`save_to_master` against the existing master. -/
def ekMain (gen : Nat → String) (now : String) (cutoff : YMD)
    (master : List Row) (pages : List (List EkItem)) : List Row :=
  save_to_master master (ekCrawl gen now cutoff initState pages).rows

/-! ### getRibbonPR2025.py fetching and pagination -/

/-- One `div.mc-list-item-wrapper`: `dateText` is `span.dates` text
(`none` when missing), `link` the resolved href of the press-release
anchor (`none` when missing), `linkText` its text, `h3Text` the fallback
`h3` text. -/
structure RbItem where
  dateText : Option String
  link : Option String
  linkText : String
  h3Text : Option String
deriving DecidableEq, Repr

/-- The first successful attempt among a sequence of attempt outcomes. -/
def firstSuccess {α : Type} : List (Option α) → Option α
  | [] => none
  | some p :: _ => some p
  | none :: rest => firstSuccess rest

/-- `get_page` of getRibbonPR2025.py: up to three attempts (a 403 or a
`RequestException` retries after a backoff sleep); when all three fail
the function raises `RuntimeError`, modelled as `none`. -/
def rb_get_page {α : Type} (tries : List (Option α)) : Option α :=
  firstSuccess (tries.take 3)

/-- One iteration of the Ribbon item loop: skip items missing the date or
link element, compute the title (falling back to the `h3` text, then
"(No title)"), skip seen links; a parse `< cutoff` stops, `≥ cutoff`
appends, unparsed falls through (dropped). -/
def rbStep (gen : Nat → String) (now : String) (cutoff : YMD)
    (st : CrawlState) (it : RbItem) : CrawlState :=
  if st.stop then st
  else
    match it.dateText, it.link with
    | some dt, some link =>
      let dateStr := ribbon_normalize_date dt
      let title :=
        if it.linkText = "" then
          match it.h3Text with
          | some h => h
          | none => "(No title)"
        else it.linkText
      if st.seen.contains link then st
      else
        let st1 := { st with seen := link :: st.seen }
        match strptimeYmd dateStr with
        | some d =>
          if YMD.lt d cutoff then { st1 with stop := true }
          else
            { st1 with
              rows := st1.rows ++
                [⟨gen st1.counter, "Ribbon Communications", title, link, dateStr, now, "", ""⟩],
              counter := st1.counter + 1 }
        | none => st1
    | _, _ => st

def rbPage (gen : Nat → String) (now : String) (cutoff : YMD)
    (st : CrawlState) (pg : List RbItem) : CrawlState :=
  pg.foldl (rbStep gen now cutoff) st

/-- The Ribbon `while not stop` pagination loop over the successive
`get_page` results.  A `none` result is the `RuntimeError` raised by
`get_page` after three failed attempts; `main` does not catch it, so the
exception propagates (`Except.error`). -/
def rbCrawl (gen : Nat → String) (now : String) (cutoff : YMD) :
    CrawlState → List (Option (List RbItem)) → Except Unit CrawlState
  | st, [] => .ok st
  | st, f :: rest =>
    if st.stop then .ok st
    else
      match f with
      | none => .error ()
      | some pg =>
        let st1 := rbPage gen now cutoff { st with requested := st.requested + 1 } pg
        if pg.isEmpty || st1.stop then .ok st1
        else rbCrawl gen now cutoff st1 rest

/-- getRibbonPR2025.py `main`: when the crawl raises, the exception
escapes `main` and `save_to_master` is never reached (`Except.error`);
otherwise the collected rows are merged into the master. -/
def rbMain (gen : Nat → String) (now : String) (cutoff : YMD)
    (master : List Row) (fetches : List (Option (List RbItem))) :
    Except Unit (List Row) :=
  match rbCrawl gen now cutoff initState fetches with
  | .error _ => .error ()
  | .ok st => .ok (save_to_master master st.rows)

/-! ### getSmartopticsPR2025.py pagination

A page carries the hrefs of the card anchors and, separately, the date
texts (`dates[i] if i < len(dates) else ""` pairs them by position).
`extract_title` fetches the linked page over the network; that adapter
call is the parameter `titleOf`. -/

structure SmPage where
  cards : List (Option String)
  dates : List String
deriving DecidableEq, Repr

/-- One iteration of the Smartoptics item loop: skip missing/empty hrefs;
a parse `< cutoff` stops; otherwise — parsed in range or unparsed — the
row is appended (unparsed records are kept with their stripped date
text). -/
def smStep (gen : Nat → String) (now : String) (titleOf : String → String)
    (cutoff : YMD) (st : CrawlState) (c : Option String) (dRaw : String) :
    CrawlState :=
  match c with
  | none => st
  | some link =>
    if link = "" then st
    else
      let dateStr := smartoptics_normalize_date dRaw
      let keep :=
        { st with
          rows := st.rows ++
            [⟨gen st.counter, "Smartoptics", titleOf link, link, dateStr, now, "", ""⟩],
          counter := st.counter + 1 }
      match strptimeYmd dateStr with
      | some d => if YMD.lt d cutoff then { st with stop := true } else keep
      | none => keep

def smItemsLoop (gen : Nat → String) (now : String) (titleOf : String → String)
    (cutoff : YMD) : CrawlState → List (Option String) → List String → CrawlState
  | st, [], _ => st
  | st, c :: cs, ds =>
    if st.stop then st
    else
      let st1 := smStep gen now titleOf cutoff st c (ds.headD "")
      smItemsLoop gen now titleOf cutoff st1 cs ds.tail

/-- The Smartoptics `while not stop` pagination loop. -/
def smCrawl (gen : Nat → String) (now : String) (titleOf : String → String)
    (cutoff : YMD) : CrawlState → List SmPage → CrawlState
  | st, [] => st
  | st, pg :: rest =>
    if st.stop then st
    else
      let st1 := smItemsLoop gen now titleOf cutoff
        { st with requested := st.requested + 1 } pg.cards pg.dates
      if pg.cards.isEmpty then st1
      else smCrawl gen now titleOf cutoff st1 rest

/-! ### getZTEPR2025.py item handling -/

/-- One `dd.item-txt` card: date span text, title text and parent link
href (each `none` when the element is missing, which the code skips). -/
structure ZtItem where
  dateText : Option String
  titleText : Option String
  link : Option String
deriving DecidableEq, Repr

/-- One iteration of the ZTE card loop: skip incomplete cards; an
unparsed normalized date hits the bare `except: continue` and the record
is dropped without stopping; a parse `< CUTOFF` stops; otherwise the row
is appended. -/
def ztStep (gen : Nat → String) (now : String) (cutoff : YMD)
    (st : CrawlState) (it : ZtItem) : CrawlState :=
  if st.stop then st
  else
    match it.dateText, it.titleText, it.link with
    | some dt, some tt, some lk =>
      let dateStr := zte_normalize_date dt
      match strptimeYmd dateStr with
      | none => st
      | some d =>
        if YMD.lt d cutoff then { st with stop := true }
        else
          { st with
            rows := st.rows ++ [⟨gen st.counter, "ZTE", tt, lk, dateStr, now, "", ""⟩],
            counter := st.counter + 1 }
    | _, _, _ => st

/-! ### summarize_press_releases_external.py

The Groq calls and the page fetch are external: `fetchText` models
`get_pr_text` and `sumF`/`impF` the two `query_groq` passes of
`generate_summary_and_impact` (applied to the page text and company). -/

/-- The per-column cleaning
`df[col].astype(str).replace(["nan", "NaN", " ", "None"], "")`:
a cell exactly equal to one of the four junk markers becomes empty. -/
def cleanCell (v : String) : String :=
  if v = "nan" || v = "NaN" || v = " " || v = "None" then "" else v

def cleanRow (r : Row) : Row :=
  { r with
    summary_ai := cleanCell r.summary_ai,
    impact_for_zhone := cleanCell r.impact_for_zhone }

/-- Processing of one (already cleaned) row of the loop in `main`: rows
with a non-blank summary are skipped, rows whose page text is empty are
skipped, otherwise `df.at` writes the two derived columns (an
all-whitespace page text makes `generate_summary_and_impact` return two
empty strings). -/
def summarizeRow (fetchText : String → String) (sumF impF : String → String → String)
    (r : Row) : Row :=
  if pyStrip r.summary_ai ≠ "" then r
  else
    let text := fetchText r.link
    if text = "" then r
    else
      { r with
        summary_ai := if pyStrip text = "" then "" else sumF text r.company,
        impact_for_zhone := if pyStrip text = "" then "" else impF text r.company }

/-- Whether the loop updates (and therefore saves) at this row. -/
def rowUpdated (fetchText : String → String) (r : Row) : Bool :=
  pyStrip r.summary_ai == "" && !(fetchText r.link == "")

/-- The on-disk table after the summarization pass: the dataframe is
cleaned in memory, each pending row is summarized, and `df.to_csv` runs
only inside the update branch — when no row is updated the file is never
rewritten and keeps its original contents. -/
def summarizePass (fetchText : String → String) (sumF impF : String → String → String)
    (table : List Row) : List Row :=
  let cleaned := table.map cleanRow
  if cleaned.any (rowUpdated fetchText) then
    cleaned.map (summarizeRow fetchText sumF impF)
  else table

/-! ### Derived notions used in the statements -/

/-- Two rows have distinct dedup keys. -/
def keyNe (a b : Row) : Prop :=
  a.company ≠ b.company ∨ a.title ≠ b.title

instance (a b : Row) : Decidable (keyNe a b) := by
  unfold keyNe; infer_instance

/-! ### Concrete fixtures for witnesses and counterexamples -/

/-- A stored row. -/
def rowAcme : Row :=
  { id := "id-1", company := "Acme", title := "Q1 Results",
    link := "https://acme.example/q1", date := "2025-01-01", fetched_at := "t0" }

/-- An incoming row whose key duplicates `rowDupB`'s but not `rowAcme`'s. -/
def rowDupA : Row :=
  { id := "id-2", company := "Acme", title := "New Product",
    link := "https://acme.example/new", date := "2025-02-01", fetched_at := "t1" }

/-- A second incoming row with the same `(company, title)` key as
`rowDupA` but a different id. -/
def rowDupB : Row :=
  { id := "id-3", company := "Acme", title := "New Product",
    link := "https://acme.example/new-again", date := "2025-02-02", fetched_at := "t1" }

/-- A deterministic stand-in for the `uuid4` stream. -/
def genIds (k : Nat) : String := "uuid-" ++ toString k

/-- A fixed `fetched_at` timestamp. -/
def nowStr : String := "2025-11-01 12:00:00"

/-- The `datetime(2025, 1, 1)` cutoff used by the crawls. -/
def cutoff2025 : YMD := ⟨2025, 1, 1⟩

/-- An Ekinops item whose date text does not normalize to `YYYY-MM-DD`. -/
def ekUnparsedItem : EkItem :=
  { link := some "https://www.ekinops.com/pr-unparsed",
    dateText := "coming soon", title := "Unparsed PR" }

/-- An Ekinops item dated before the 2025 cutoff. -/
def ekOldItem : EkItem :=
  { link := some "https://www.ekinops.com/pr-old",
    dateText := "31 December 2024", title := "Old PR" }

/-- An Ekinops item dated after the 2025 cutoff. -/
def ekNewItem : EkItem :=
  { link := some "https://www.ekinops.com/pr-new",
    dateText := "20 March 2025", title := "New PR" }

/-- A Ribbon item dated after the 2025 cutoff. -/
def rbGoodItem : RbItem :=
  { dateText := some "October 31, 2025",
    link := some "https://ribboncommunications.com/pr1",
    linkText := "Ribbon PR 1", h3Text := none }

/-- A Ribbon item dated before the 2025 cutoff. -/
def rbOldItem : RbItem :=
  { dateText := some "December 31, 2024",
    link := some "https://ribboncommunications.com/pr-old",
    linkText := "Ribbon old PR", h3Text := none }

/-- A master row whose summary is already populated but whose impact cell
holds the literal junk marker "None". -/
def rowSummarized : Row :=
  { id := "id-A", company := "Nokia", title := "PR A",
    link := "https://nokia.example/a", date := "2025-01-02", fetched_at := "t0",
    summary_ai := "done", impact_for_zhone := "None" }

/-- A master row still awaiting summarization. -/
def rowPending : Row :=
  { id := "id-B", company := "Nokia", title := "PR B",
    link := "https://nokia.example/b", date := "2025-01-03", fetched_at := "t0",
    summary_ai := "", impact_for_zhone := "" }

/-- A stand-in for `get_pr_text`. -/
def fetchFix : String → String := fun _ => "page text"

/-- A stand-in for the summary pass of `generate_summary_and_impact`. -/
def sumFix : String → String → String := fun _ _ => "S"

/-- A stand-in for the impact pass of `generate_summary_and_impact`. -/
def impFix : String → String → String := fun _ _ => "I"

end Presswatch

namespace Presswatch

/-! ## Supporting lemmas -/

/-! ### Digits, padding and field parsers -/

theorem digitVal_digitChar (n : Nat) (h : n < 10) :
    digitVal (Nat.digitChar n) = some n := by
  interval_cases n <;> decide

theorem isDigit_digitChar (n : Nat) (h : n < 10) :
    (Nat.digitChar n).isDigit = true := by
  interval_cases n <;> decide

theorem pySpace_digitChar (n : Nat) (h : n < 10) :
    pySpace (Nat.digitChar n) = false := by
  interval_cases n <;> decide

theorem digitVal_lt {c : Char} {x : Nat} (h : digitVal c = some x) : x < 10 := by
  unfold digitVal at h
  split_ifs at h <;> (injection h with h1; omega)

theorem pLit_self (c : Char) (r : List Char) : pLit c (c :: r) = some r := by
  simp [pLit]

theorem mkDate_eq {y m d : Nat} {dd : YMD} (h : mkDate y m d = some dd) :
    dd = ⟨y, m, d⟩ ∧ 1 ≤ y ∧ d ≤ daysInMonth y m := by
  unfold mkDate at h
  split at h
  · next hc => exact ⟨(Option.some.injEq _ _ ▸ h).symm, hc.1, hc.2⟩
  · cases h

theorem pYear_lt {l r : List Char} {y : Nat} (h : pYear l = some (y, r)) :
    y < 10000 := by
  unfold pYear at h
  split at h
  · next a b c d rest =>
    split at h
    · next x z w v hx hz hw hv =>
      injection h with h1
      have e1 := digitVal_lt hx
      have e2 := digitVal_lt hz
      have e3 := digitVal_lt hw
      have e4 := digitVal_lt hv
      have := congrArg Prod.fst h1
      simp at this
      omega
    · cases h
  · cases h

theorem pDay_bounds {l r : List Char} {x : Nat} (h : pDay l = some (x, r)) :
    1 ≤ x ∧ x ≤ 31 := by
  unfold pDay at h
  split at h
  · cases h
  · next a =>
    split at h
    · next v hv =>
      have := digitVal_lt hv
      split at h
      · injection h with h1
        have := congrArg Prod.fst h1
        simp at this
        omega
      · cases h
    · cases h
  · next a b rest =>
    split at h
    · cases h
    · next v hv =>
      have e1 := digitVal_lt hv
      split at h
      · next w hw =>
        have e2 := digitVal_lt hw
        split_ifs at h <;>
          (injection h with h1; have := congrArg Prod.fst h1; simp at this; omega)
      · split at h
        · injection h with h1
          have := congrArg Prod.fst h1
          simp at this
          omega
        · cases h

theorem pMonthNum_bounds {l r : List Char} {x : Nat} (h : pMonthNum l = some (x, r)) :
    1 ≤ x ∧ x ≤ 12 := by
  unfold pMonthNum at h
  split at h
  · cases h
  · next a =>
    split at h
    · next v hv =>
      have := digitVal_lt hv
      split at h
      · injection h with h1
        have := congrArg Prod.fst h1
        simp at this
        omega
      · cases h
    · cases h
  · next a b rest =>
    split at h
    · cases h
    · next v hv =>
      have e1 := digitVal_lt hv
      split at h
      · next w hw =>
        have e2 := digitVal_lt hw
        split_ifs at h <;>
          (injection h with h1; have := congrArg Prod.fst h1; simp at this; omega)
      · split at h
        · injection h with h1
          have := congrArg Prod.fst h1
          simp at this
          omega
        · cases h

theorem pMonthName_bounds {table : List (List Char × Nat)} {l r : List Char} {m : Nat}
    (ht : ∀ p ∈ table, 1 ≤ p.2 ∧ p.2 ≤ 12)
    (h : pMonthName table l = some (m, r)) : 1 ≤ m ∧ m ≤ 12 := by
  induction table with
  | nil => cases h
  | cons hd tl ih =>
    obtain ⟨nm, num⟩ := hd
    unfold pMonthName at h
    split at h
    · injection h with h1
      have hm : m = num := by
        have := congrArg Prod.fst h1
        simpa using this.symm
      subst hm
      exact ht _ (List.mem_cons_self _ _)
    · exact ih (fun p hp => ht p (List.mem_cons_of_mem _ hp)) h

theorem monthsFull_bounds : ∀ p ∈ monthsFull, 1 ≤ p.2 ∧ p.2 ≤ 12 := by decide

theorem monthsAbbr_bounds : ∀ p ∈ monthsAbbr, 1 ≤ p.2 ∧ p.2 ≤ 12 := by decide

theorem pYear_pad4 (y : Nat) (hy : y < 10000) (r : List Char) :
    pYear (pad4 y ++ r) = some (y, r) := by
  have h1 : y / 1000 % 10 < 10 := Nat.mod_lt _ (by norm_num)
  have h2 : y / 100 % 10 < 10 := Nat.mod_lt _ (by norm_num)
  have h3 : y / 10 % 10 < 10 := Nat.mod_lt _ (by norm_num)
  have h4 : y % 10 < 10 := Nat.mod_lt _ (by norm_num)
  simp only [pad4, List.cons_append, List.nil_append, pYear,
    digitVal_digitChar _ h1, digitVal_digitChar _ h2, digitVal_digitChar _ h3,
    digitVal_digitChar _ h4]
  have : y / 1000 % 10 * 1000 + y / 100 % 10 * 100 + y / 10 % 10 * 10 + y % 10 = y := by
    omega
  rw [this]

theorem pMonthNum_pad2 {m : Nat} (h1 : 1 ≤ m) (h2 : m ≤ 12) (r : List Char) :
    pMonthNum (pad2 m ++ r) = some (m, r) := by
  interval_cases m <;> rfl

theorem pDay_pad2 {d : Nat} (h1 : 1 ≤ d) (h2 : d ≤ 31) (r : List Char) :
    pDay (pad2 d ++ r) = some (d, r) := by
  interval_cases d <;> rfl

/-! ### Idempotence of the strip model -/

theorem dropWhileEnd_cons (p : Char → Bool) (a : Char) (t : List Char) :
    dropWhileEnd p (a :: t) =
      if (dropWhileEnd p t).isEmpty && p a then [] else a :: dropWhileEnd p t := rfl

theorem dropWhile_dropWhile (p : Char → Bool) (l : List Char) :
    (l.dropWhile p).dropWhile p = l.dropWhile p := by
  induction l with
  | nil => rfl
  | cons a t ih =>
    by_cases h : p a
    · simp [List.dropWhile_cons, h, ih]
    · simp [List.dropWhile_cons, h]

theorem dropWhileEnd_idem (p : Char → Bool) (l : List Char) :
    dropWhileEnd p (dropWhileEnd p l) = dropWhileEnd p l := by
  induction l with
  | nil => rfl
  | cons a t ih =>
    rw [dropWhileEnd_cons]
    by_cases hc : ((dropWhileEnd p t).isEmpty && p a) = true
    · rw [if_pos hc]
      rfl
    · rw [if_neg hc, dropWhileEnd_cons, ih, if_neg hc]

theorem dropWhile_dropWhileEnd (p : Char → Bool) (l : List Char)
    (h : l.dropWhile p = l) :
    (dropWhileEnd p l).dropWhile p = dropWhileEnd p l := by
  cases l with
  | nil => rfl
  | cons a t =>
    have hpa : p a = false := by
      by_cases hp : p a
      · rw [List.dropWhile_cons, if_pos hp] at h
        have hlen := List.Sublist.length_le (List.dropWhile_sublist (l := t) p)
        have := congrArg List.length h
        simp at this
        omega
      · exact Bool.eq_false_iff.mpr hp
    rw [dropWhileEnd_cons]
    by_cases hc : ((dropWhileEnd p t).isEmpty && p a) = true
    · rw [if_pos hc]
      rfl
    · rw [if_neg hc, List.dropWhile_cons, hpa]
      simp

theorem pyStripList_idem (l : List Char) :
    pyStripList (pyStripList l) = pyStripList l := by
  unfold pyStripList
  rw [dropWhile_dropWhileEnd pySpace (l.dropWhile pySpace) (dropWhile_dropWhile _ _),
    dropWhileEnd_idem]

theorem pyStrip_idem (s : String) : pyStrip (pyStrip s) = pyStrip s := by
  show (⟨pyStripList (pyStripList s.data)⟩ : String) = ⟨pyStripList s.data⟩
  rw [pyStripList_idem]

theorem dropWhile_of_no_space {l : List Char}
    (h : ∀ c ∈ l, pySpace c = false) : l.dropWhile pySpace = l := by
  cases l with
  | nil => rfl
  | cons a t =>
    rw [List.dropWhile_cons, h a (List.mem_cons_self _ _)]
    simp

theorem dropWhileEnd_of_no_space {l : List Char}
    (h : ∀ c ∈ l, pySpace c = false) : dropWhileEnd pySpace l = l := by
  induction l with
  | nil => rfl
  | cons a t ih =>
    rw [dropWhileEnd_cons, h a (List.mem_cons_self _ _), Bool.and_false]
    simp only [Bool.false_eq_true, if_false]
    rw [ih (fun c hc => h c (List.mem_cons_of_mem _ hc))]

theorem pyStripList_of_no_space {l : List Char}
    (h : ∀ c ∈ l, pySpace c = false) : pyStripList l = l := by
  unfold pyStripList
  rw [dropWhile_of_no_space h, dropWhileEnd_of_no_space h]

/-! ### Shape and roundtrip of the ISO output -/

theorem fmtISO_no_space (dd : YMD) :
    ∀ c ∈ (fmtISO dd).data, pySpace c = false := by
  intro c hc
  have hd : (fmtISO dd).data =
      pad4 dd.year ++ '-' :: pad2 dd.month ++ '-' :: pad2 dd.day := rfl
  rw [hd] at hc
  simp only [pad4, pad2, List.cons_append, List.nil_append, List.mem_cons,
    List.mem_append, List.not_mem_nil, or_false] at hc
  rcases hc with h | h | h | h | h | h | h | h | h | h <;>
    first
      | (subst h; exact pySpace_digitChar _ (Nat.mod_lt _ (by norm_num)))
      | (subst h; decide)

theorem pyStrip_fmtISO (dd : YMD) : pyStrip (fmtISO dd) = fmtISO dd := by
  show (⟨pyStripList (fmtISO dd).data⟩ : String) = fmtISO dd
  rw [pyStripList_of_no_space (fmtISO_no_space dd)]

theorem isISOFormat_fmtISO (dd : YMD) : isISOFormat (fmtISO dd) = true := by
  obtain ⟨y, m, d⟩ := dd
  show ((Nat.digitChar (y / 1000 % 10)).isDigit && (Nat.digitChar (y / 100 % 10)).isDigit &&
    (Nat.digitChar (y / 10 % 10)).isDigit && (Nat.digitChar (y % 10)).isDigit &&
    ('-' = '-' : Bool) && (Nat.digitChar (m / 10 % 10)).isDigit &&
    (Nat.digitChar (m % 10)).isDigit && ('-' = '-' : Bool) &&
    (Nat.digitChar (d / 10 % 10)).isDigit && (Nat.digitChar (d % 10)).isDigit) = true
  simp [isDigit_digitChar _ (Nat.mod_lt _ (by norm_num : (0:ℕ) < 10))]

theorem daysInMonth_le_31 (y m : Nat) : daysInMonth y m ≤ 31 := by
  unfold daysInMonth
  split_ifs <;> omega

theorem strptimeYmd_fmtISO {dd : YMD} (h : dd.Valid) :
    strptimeYmd (fmtISO dd) = some dd := by
  obtain ⟨y, m, d⟩ := dd
  obtain ⟨h1, h2, h3, h4, h5, h6⟩ := h
  dsimp only at h1 h2 h3 h4 h5 h6
  have hday31 : d ≤ 31 := le_trans h6 (daysInMonth_le_31 y m)
  unfold strptimeYmd parseYmdSep
  have hd : (fmtISO ⟨y, m, d⟩).data =
      pad4 y ++ '-' :: (pad2 m ++ '-' :: pad2 d) := by
    show pad4 y ++ '-' :: pad2 m ++ '-' :: pad2 d =
      pad4 y ++ '-' :: (pad2 m ++ '-' :: pad2 d)
    simp
  have hpd : pDay (pad2 d) = some (d, []) := by
    have := pDay_pad2 h5 hday31 []
    rwa [List.append_nil] at this
  simp only [hd, pYear_pad4 y (by omega : y < 10000), pLit_self,
    pMonthNum_pad2 h3 h4, hpd, List.isEmpty_nil, if_true]
  unfold mkDate
  rw [if_pos ⟨h1, h6⟩]

theorem keyInMaster_of_mem {L : List Row} {r : Row} (h : r ∈ L) :
    keyInMaster L r = true := by
  simp only [keyInMaster, List.any_eq_true]
  exact ⟨r, h, by simp⟩

theorem keyInMaster_append (A B : List Row) (r : Row) :
    keyInMaster (A ++ B) r = (keyInMaster A r || keyInMaster B r) := by
  simp [keyInMaster, List.any_append]

theorem keyNe_of_not_keyInMaster {S : List Row} {m r : Row} (hm : m ∈ S)
    (h : keyInMaster S r = false) : keyNe m r := by
  simp only [keyInMaster, List.any_eq_false] at h
  have := h m hm
  simp only [Bool.and_eq_true, beq_iff_eq, not_and] at this
  by_cases hc : m.company = r.company
  · exact Or.inr (this hc)
  · exact Or.inl hc

/-- The contents written by `save_to_master` are always the old master
followed by the incoming rows whose key is absent from the master. -/
theorem save_to_master_eq (S X : List Row) :
    save_to_master S X = S ++ X.filter (fun r => !keyInMaster S r) := by
  unfold save_to_master
  by_cases hX : X.isEmpty
  · simp [List.isEmpty_iff.mp hX]
  · simp only [hX, if_false]
    by_cases hS : S.isEmpty
    · have hSnil := List.isEmpty_iff.mp hS
      subst hSnil
      simp [keyInMaster]
    · simp [hS]

/-! ### Every successful strptime yields a valid calendar date -/

theorem parseYmdSep_valid {sep : Char} {s : String} {dd : YMD}
    (h : parseYmdSep sep s = some dd) : dd.Valid := by
  unfold parseYmdSep at h
  split at h
  · exact Option.noConfusion h
  next y r1 hy =>
    split at h
    · exact Option.noConfusion h
    next r2 hlit1 =>
      split at h
      · exact Option.noConfusion h
      next m r3 hm =>
        split at h
        · exact Option.noConfusion h
        next r4 hlit2 =>
          split at h
          · exact Option.noConfusion h
          next d r5 hd =>
            split at h
            · obtain ⟨he, hy1, hdm⟩ := mkDate_eq h
              subst he
              have hy2 := pYear_lt hy
              have hm2 := pMonthNum_bounds hm
              have hd2 := pDay_bounds hd
              exact ⟨hy1, (by omega : y ≤ 9999), hm2.1, hm2.2, hd2.1, hdm⟩
            · exact Option.noConfusion h

theorem parseMonthNameFirst_valid {table : List (List Char × Nat)} {s : String}
    {dd : YMD} (ht : ∀ p ∈ table, 1 ≤ p.2 ∧ p.2 ≤ 12)
    (h : parseMonthNameFirst table s = some dd) : dd.Valid := by
  unfold parseMonthNameFirst at h
  split at h
  · exact Option.noConfusion h
  next m r1 hm =>
    split at h
    · exact Option.noConfusion h
    next r2 hws1 =>
      split at h
      · exact Option.noConfusion h
      next d r3 hd =>
        split at h
        · exact Option.noConfusion h
        next r4 hlit =>
          split at h
          · exact Option.noConfusion h
          next r5 hws2 =>
            split at h
            · exact Option.noConfusion h
            next y r6 hy =>
              split at h
              · obtain ⟨he, hy1, hdm⟩ := mkDate_eq h
                subst he
                have hy2 := pYear_lt hy
                have hm2 := pMonthName_bounds ht hm
                have hd2 := pDay_bounds hd
                exact ⟨hy1, (by omega : y ≤ 9999), hm2.1, hm2.2, hd2.1, hdm⟩
              · exact Option.noConfusion h

theorem strptimedBY_valid {s : String} {dd : YMD}
    (h : strptimedBY s = some dd) : dd.Valid := by
  unfold strptimedBY at h
  split at h
  · exact Option.noConfusion h
  next d r1 hd =>
    split at h
    · exact Option.noConfusion h
    next r2 hws1 =>
      split at h
      · exact Option.noConfusion h
      next m r3 hm =>
        split at h
        · exact Option.noConfusion h
        next r4 hws2 =>
          split at h
          · exact Option.noConfusion h
          next y r5 hy =>
            split at h
            · obtain ⟨he, hy1, hdm⟩ := mkDate_eq h
              subst he
              have hy2 := pYear_lt hy
              have hm2 := pMonthName_bounds monthsFull_bounds hm
              have hd2 := pDay_bounds hd
              exact ⟨hy1, (by omega : y ≤ 9999), hm2.1, hm2.2, hd2.1, hdm⟩
            · exact Option.noConfusion h

theorem strptimedbYCompact_valid {s : String} {dd : YMD}
    (h : strptimedbYCompact s = some dd) : dd.Valid := by
  unfold strptimedbYCompact at h
  split at h
  · exact Option.noConfusion h
  next d r1 hd =>
    split at h
    · exact Option.noConfusion h
    next m r2 hm =>
      split at h
      · exact Option.noConfusion h
      next y r3 hy =>
        split at h
        · obtain ⟨he, hy1, hdm⟩ := mkDate_eq h
          subst he
          have hy2 := pYear_lt hy
          have hm2 := pMonthName_bounds monthsAbbr_bounds hm
          have hd2 := pDay_bounds hd
          exact ⟨hy1, (by omega : y ≤ 9999), hm2.1, hm2.2, hd2.1, hdm⟩
        · exact Option.noConfusion h

theorem strptimeYmd_valid {s : String} {dd : YMD}
    (h : strptimeYmd s = some dd) : dd.Valid :=
  parseYmdSep_valid h

theorem strptimeBdY_valid {s : String} {dd : YMD}
    (h : strptimeBdY s = some dd) : dd.Valid :=
  parseMonthNameFirst_valid monthsFull_bounds h

theorem strptimebdY_valid {s : String} {dd : YMD}
    (h : strptimebdY s = some dd) : dd.Valid :=
  parseMonthNameFirst_valid monthsAbbr_bounds h

/-! ## C1 — dedup-key integrity of the merged store -/

/-- C1, counterexample: `save_to_master` does not deduplicate within the
incoming batch.  Merging a batch holding two records with the same
`(company, title)` key but different ids (into the empty master) writes a
store containing both, so the claimed invariant — `r1.id ≠ r2.id` implies
`(r1.company, r1.title) ≠ (r2.company, r2.title)` for all post-merge rows
— is false. -/
theorem c1_dedup_counterexample :
    ¬ (∀ r1 ∈ save_to_master [] [rowDupA, rowDupB],
        ∀ r2 ∈ save_to_master [] [rowDupA, rowDupB],
          r1.id ≠ r2.id → (r1.company, r1.title) ≠ (r2.company, r2.title)) := by
  intro h
  have h1 : rowDupA ∈ save_to_master [] [rowDupA, rowDupB] := by decide
  have h2 : rowDupB ∈ save_to_master [] [rowDupA, rowDupB] := by decide
  exact (h rowDupA h1 rowDupB h2 (by decide)) (by decide)

/-- C1, amended: provided the existing store has pairwise-distinct
`(company, title)` keys and the incoming batch does too, the store
written by `save_to_master` never contains two rows with the same
`(company, title)` pair (so in particular any two rows with different
ids have different keys). -/
theorem c1_dedup_key_integrity (S X : List Row)
    (hS : S.Pairwise keyNe) (hX : X.Pairwise keyNe) :
    (save_to_master S X).Pairwise keyNe := by
  rw [save_to_master_eq]
  rw [List.pairwise_append]
  refine ⟨hS, hX.filter _, ?_⟩
  intro a ha b hb
  rw [List.mem_filter] at hb
  have hfb : keyInMaster S b = false := by
    have := hb.2
    simpa using this
  exact keyNe_of_not_keyInMaster ha hfb

/-- C1, witness: a concrete store and batch satisfying the hypotheses. -/
theorem c1_dedup_key_integrity_witness :
    ([rowAcme] : List Row).Pairwise keyNe ∧
      ([rowDupA] : List Row).Pairwise keyNe ∧
      (save_to_master [rowAcme] [rowDupA]).Pairwise keyNe :=
  ⟨by decide, by decide,
    c1_dedup_key_integrity [rowAcme] [rowDupA] (by decide) (by decide)⟩

/-! ## C2 — merge idempotence -/

/-- C2: merging the same incoming batch twice yields the same store as
merging it once: every batch row's key is present in the once-merged
store (either it was already in the master or it was appended), so the
second merge appends nothing. -/
theorem c2_merge_idempotent (S X : List Row) :
    save_to_master (save_to_master S X) X = save_to_master S X := by
  rw [save_to_master_eq S X, save_to_master_eq (S ++ _) X]
  have hall : ∀ r ∈ X, keyInMaster (S ++ X.filter (fun r => !keyInMaster S r)) r = true := by
    intro r hr
    rw [keyInMaster_append]
    by_cases hk : keyInMaster S r = true
    · simp [hk]
    · have hf : r ∈ X.filter (fun r => !keyInMaster S r) := by
        rw [List.mem_filter]
        exact ⟨hr, by simp [Bool.eq_false_iff.mpr hk]⟩
      simp [keyInMaster_of_mem hf]
  have hnil : X.filter
      (fun r => !keyInMaster (S ++ X.filter (fun r => !keyInMaster S r)) r) = [] := by
    rw [List.filter_eq_nil_iff]
    intro r hr
    simp [hall r hr]
  rw [hnil, List.append_nil]

/-! ## C3 — frame preservation on merge -/

/-- C3: for a non-empty existing store, the merged result starts with the
existing rows unmodified (all fields, derived columns included) and in
their original order, and everything after them is an incoming row whose
`(company, title)` key was absent from the store. -/
theorem c3_frame_preservation (S X : List Row) (_hS : S ≠ []) :
    (save_to_master S X).take S.length = S ∧
      ∀ r ∈ (save_to_master S X).drop S.length,
        r ∈ X ∧ ∀ m ∈ S, (m.company, m.title) ≠ (r.company, r.title) := by
  rw [save_to_master_eq]
  constructor
  · rw [List.take_left]
  · rw [List.drop_left]
    intro r hr
    rw [List.mem_filter] at hr
    refine ⟨hr.1, ?_⟩
    intro m hm
    have hfb : keyInMaster S r = false := by
      have := hr.2; simpa using this
    have := keyNe_of_not_keyInMaster hm hfb
    intro hpair
    rcases this with hc | ht
    · exact hc (congrArg Prod.fst hpair)
    · exact ht (congrArg Prod.snd hpair)

/-- C3, witness: merging one genuinely new row into a one-row store keeps
the stored row first and appends only the new key. -/
theorem c3_frame_preservation_witness :
    (([rowAcme] : List Row) ≠ []) ∧
      ((save_to_master [rowAcme] [rowDupA]).take 1 = [rowAcme] ∧
        ∀ r ∈ (save_to_master [rowAcme] [rowDupA]).drop 1,
          r ∈ [rowDupA] ∧ ∀ m ∈ [rowAcme], (m.company, m.title) ≠ (r.company, r.title)) :=
  ⟨by decide, c3_frame_preservation [rowAcme] [rowDupA] (by decide)⟩

/-! ## C7 — the spec's normalize_date examples -/

/-- C7, counterexample: the claim names both cited `normalize_date`
implementations, but getCalixPRLoadMoreDateOK.py's variant has no `|`
handling and no compact `%d%b%Y` pattern, so it returns
"20Mar2025|09:00" unchanged instead of "2025-03-20". -/
theorem c7_examples_counterexample :
    calix_normalize_date "20Mar2025|09:00" ≠ "2025-03-20" := by decide

/-- C7, amended: getNokiaPRDateUpdated.py's `normalize_date` maps all
three spec examples to the spec outputs; the Calix variant agrees on
"October 31, 2025" and "not a date" but returns "20Mar2025|09:00"
unchanged. -/
theorem c7_normalize_examples :
    nokia_normalize_date "October 31, 2025" = "2025-10-31" ∧
      nokia_normalize_date "20Mar2025|09:00" = "2025-03-20" ∧
      nokia_normalize_date "not a date" = "not a date" ∧
      calix_normalize_date "October 31, 2025" = "2025-10-31" ∧
      calix_normalize_date "not a date" = "not a date" ∧
      calix_normalize_date "20Mar2025|09:00" = "20Mar2025|09:00" := by
  refine ⟨?_, ?_, ?_, ?_, ?_, ?_⟩ <;> decide

/-! ## C4 — pagination stop correctness (Ekinops controller) -/

/-- Once a processed prefix of the pages has set the stop flag, the crawl
over the full page list coincides with the crawl over that prefix: no
further page is requested and the collected rows are unchanged. -/
theorem ekCrawl_stop_early (gen : Nat → String) (now : String) (cutoff : YMD)
    (pages : List (List EkItem)) (k : Nat) (st : CrawlState)
    (hst : st.stop = false)
    (h : (ekCrawl gen now cutoff st (pages.take k)).stop = true) :
    ekCrawl gen now cutoff st pages = ekCrawl gen now cutoff st (pages.take k) := by
  induction pages generalizing k st with
  | nil => rw [List.take_nil]
  | cons pg rest ih =>
    cases k with
    | zero =>
      simp only [List.take_zero, ekCrawl] at h
      rw [hst] at h
      cases h
    | succ k =>
      simp only [List.take_succ_cons, ekCrawl] at h ⊢
      by_cases hcond :
          (pg.isEmpty || (ekPage gen now cutoff { st with requested := st.requested + 1 } pg).stop) = true
      · simp [hcond]
      · rw [Bool.not_eq_true] at hcond
        rw [hcond] at h ⊢
        simp only [Bool.false_eq_true, if_false] at h ⊢
        have hs1 : (ekPage gen now cutoff { st with requested := st.requested + 1 } pg).stop = false := by
          rcases Bool.or_eq_false_iff.mp hcond with ⟨_, h2⟩
          exact h2
        exact ih k _ hs1 h

/-- The Ribbon analogue of `ekCrawl_stop_early`: once a processed prefix
of the fetch results has completed with the stop flag set, the crawl over
the full fetch sequence returns the same state — no further page is
requested. -/
theorem rbCrawl_stop_early (gen : Nat → String) (now : String) (cutoff : YMD)
    (fetches : List (Option (List RbItem))) (k : Nat) (st st' : CrawlState)
    (hst : st.stop = false)
    (h : rbCrawl gen now cutoff st (fetches.take k) = .ok st')
    (hstop : st'.stop = true) :
    rbCrawl gen now cutoff st fetches = .ok st' := by
  induction fetches generalizing k st with
  | nil =>
    rw [List.take_nil] at h
    exact h
  | cons f rest ih =>
    cases k with
    | zero =>
      simp only [List.take_zero, rbCrawl] at h
      injection h with h'
      rw [← h'] at hstop
      rw [hst] at hstop
      cases hstop
    | succ k =>
      rw [List.take_succ_cons] at h
      have hst' : (st.stop = true) = False := by simp [hst]
      cases f with
      | none =>
        simp only [rbCrawl, hst', if_false] at h
        exact Except.noConfusion h
      | some pg =>
        simp only [rbCrawl, hst', if_false] at h ⊢
        by_cases hcond :
            (pg.isEmpty || (rbPage gen now cutoff { st with requested := st.requested + 1 } pg).stop) = true
        · rw [if_pos hcond] at h ⊢
          exact h
        · rw [Bool.not_eq_true] at hcond
          rw [hcond] at h ⊢
          simp only [Bool.false_eq_true, if_false] at h ⊢
          have hs1 : (rbPage gen now cutoff { st with requested := st.requested + 1 } pg).stop = false := by
            rcases Bool.or_eq_false_iff.mp hcond with ⟨_, h2⟩
            exact h2
          exact ih k _ hs1 h

/-- C4: in both cited pagination controllers — getEkinopsPR2025.py's and
getRibbonPR2025.py's — once a record normalizing to an ISO date strictly
before the cutoff has been observed (the stop flag is set after some
prefix of the pages), the full crawl coincides with the prefix crawl: no
further page is requested, the rows at or after the cutoff collected so
far are exactly the final rows, and `main` hands exactly those rows to
`save_to_master`.  This holds for every page sequence,
reverse-chronological or not. -/
theorem c4_pagination_stop (gen : Nat → String) (now : String) (cutoff : YMD)
    (master : List Row) :
    (∀ (pages : List (List EkItem)) (k : Nat),
      (ekCrawl gen now cutoff initState (pages.take k)).stop = true →
        ekCrawl gen now cutoff initState pages =
            ekCrawl gen now cutoff initState (pages.take k) ∧
          ekMain gen now cutoff master pages =
            save_to_master master
              (ekCrawl gen now cutoff initState (pages.take k)).rows) ∧
      (∀ (fetches : List (Option (List RbItem))) (k : Nat) (st : CrawlState),
        rbCrawl gen now cutoff initState (fetches.take k) = .ok st →
          st.stop = true →
            rbCrawl gen now cutoff initState fetches = .ok st ∧
              rbMain gen now cutoff master fetches =
                .ok (save_to_master master st.rows)) := by
  constructor
  · intro pages k h
    have heq := ekCrawl_stop_early gen now cutoff pages k initState rfl h
    exact ⟨heq, by rw [ekMain, heq]⟩
  · intro fetches k st h hstop
    have heq := rbCrawl_stop_early gen now cutoff fetches k initState st rfl h hstop
    refine ⟨heq, ?_⟩
    rw [rbMain, heq]

/-- C4, witness: for each controller, a crawl whose first page holds a
2025 record followed by a 2024 record stops within that page; the second
page is never requested (for Ribbon it would even fail) and the collected
2025 record reaches the merge. -/
theorem c4_pagination_stop_witness :
    ((ekCrawl genIds nowStr cutoff2025 initState ([[ekNewItem, ekOldItem]].take 1)).stop = true ∧
      ekCrawl genIds nowStr cutoff2025 initState [[ekNewItem, ekOldItem], [ekNewItem]] =
        ekCrawl genIds nowStr cutoff2025 initState ([[ekNewItem, ekOldItem]].take 1) ∧
      ekMain genIds nowStr cutoff2025 [] [[ekNewItem, ekOldItem], [ekNewItem]] =
        save_to_master []
          (ekCrawl genIds nowStr cutoff2025 initState ([[ekNewItem, ekOldItem]].take 1)).rows) ∧
      (rbCrawl genIds nowStr cutoff2025 initState
          (([some [rbGoodItem, rbOldItem], none] :
            List (Option (List RbItem))).take 1) =
          .ok (rbPage genIds nowStr cutoff2025 { initState with requested := 1 }
            [rbGoodItem, rbOldItem]) ∧
        rbCrawl genIds nowStr cutoff2025 initState [some [rbGoodItem, rbOldItem], none] =
          .ok (rbPage genIds nowStr cutoff2025 { initState with requested := 1 }
            [rbGoodItem, rbOldItem]) ∧
        rbMain genIds nowStr cutoff2025 [] [some [rbGoodItem, rbOldItem], none] =
          .ok (save_to_master []
            (rbPage genIds nowStr cutoff2025 { initState with requested := 1 }
              [rbGoodItem, rbOldItem]).rows)) := by
  have hek : (ekCrawl genIds nowStr cutoff2025 initState
      (([[ekNewItem, ekOldItem], [ekNewItem]] : List (List EkItem)).take 1)).stop = true := by
    decide
  have hek2 := (c4_pagination_stop genIds nowStr cutoff2025 []).1
    [[ekNewItem, ekOldItem], [ekNewItem]] 1 hek
  have hrbpre : rbCrawl genIds nowStr cutoff2025 initState
      (([some [rbGoodItem, rbOldItem], none] : List (Option (List RbItem))).take 1) =
      .ok (rbPage genIds nowStr cutoff2025 { initState with requested := 1 }
        [rbGoodItem, rbOldItem]) := by
    rfl
  have hrbstop : (rbPage genIds nowStr cutoff2025 { initState with requested := 1 }
      [rbGoodItem, rbOldItem]).stop = true := by decide
  have hrb2 := (c4_pagination_stop genIds nowStr cutoff2025 []).2
    [some [rbGoodItem, rbOldItem], none] 1 _ hrbpre hrbstop
  exact ⟨⟨by decide, hek2.1, hek2.2⟩, hrbpre, hrb2.1, hrb2.2⟩

/-! ## C5 — unparsed dates under cutoff filtering -/

/-- C5, counterexample: in the Ekinops cutoff-filtered crawl, a record
whose date text fails to normalize is dropped, not retained: a crawl
over one page holding only such a record collects no rows (the stop flag
is indeed not triggered). -/
theorem c5_unparsed_counterexample :
    (ekCrawl genIds nowStr cutoff2025 initState [[ekUnparsedItem]]).rows = [] ∧
      (ekCrawl genIds nowStr cutoff2025 initState [[ekUnparsedItem]]).stop = false := by
  decide

/-- C5, amended: an unparsed date never triggers the early pagination
stop in any of the cited crawls, but retention differs: the Ekinops and
ZTE loops drop the record, while the Smartoptics loop appends it with
its (stripped) unparsed date text. -/
theorem c5_unparsed_policy :
    (∀ (gen : Nat → String) (now : String) (cutoff : YMD) (st : CrawlState)
        (l dtx ttl : String), st.stop = false →
        strptimeYmd (ekinops_normalize_date dtx) = none →
        (ekStep gen now cutoff st ⟨some l, dtx, ttl⟩).rows = st.rows ∧
          (ekStep gen now cutoff st ⟨some l, dtx, ttl⟩).stop = false) ∧
      (∀ (gen : Nat → String) (now : String) (cutoff : YMD) (st : CrawlState)
          (dt tt lk : String), st.stop = false →
          strptimeYmd (zte_normalize_date dt) = none →
          ztStep gen now cutoff st ⟨some dt, some tt, some lk⟩ = st) ∧
      (∀ (gen : Nat → String) (now : String) (titleOf : String → String)
          (cutoff : YMD) (st : CrawlState) (l dRaw : String), l ≠ "" →
          strptimeYmd (smartoptics_normalize_date dRaw) = none →
          smStep gen now titleOf cutoff st (some l) dRaw =
            { st with
              rows := st.rows ++
                [⟨gen st.counter, "Smartoptics", titleOf l, l,
                  smartoptics_normalize_date dRaw, now, "", ""⟩],
              counter := st.counter + 1 }) := by
  refine ⟨?_, ?_, ?_⟩
  · intro gen now cutoff st l dtx ttl hstop hparse
    simp only [ekStep, hstop, Bool.false_eq_true, if_false]
    by_cases hl : l = ""
    · simp [hl, hstop]
    · simp only [hl, if_false]
      by_cases hseen : l ∈ st.seen
      · simp [hseen, hstop]
      · simp [hseen, hparse, hstop]
  · intro gen now cutoff st dt tt lk hstop hparse
    simp [ztStep, hstop, hparse]
  · intro gen now titleOf cutoff st l dRaw hl hparse
    simp [smStep, hl, hparse]

/-- C5, witness: concrete instances of the three behaviours. -/
theorem c5_unparsed_policy_witness :
    ((ekStep genIds nowStr cutoff2025 initState ⟨some "L", "coming soon", "T"⟩).rows =
        initState.rows ∧
      (ekStep genIds nowStr cutoff2025 initState ⟨some "L", "coming soon", "T"⟩).stop = false) ∧
      ztStep genIds nowStr cutoff2025 initState ⟨some "soon", some "T", some "L"⟩ = initState ∧
      smStep genIds nowStr (fun _ => "T") cutoff2025 initState (some "L") "soon" =
        { initState with
          rows := initState.rows ++
            [⟨genIds initState.counter, "Smartoptics", "T", "L",
              smartoptics_normalize_date "soon", nowStr, "", ""⟩],
          counter := initState.counter + 1 } :=
  ⟨c5_unparsed_policy.1 genIds nowStr cutoff2025 initState "L" "coming soon" "T"
      (by decide) (by decide),
    c5_unparsed_policy.2.1 genIds nowStr cutoff2025 initState "soon" "T" "L"
      (by decide) (by decide),
    c5_unparsed_policy.2.2 genIds nowStr (fun _ => "T") cutoff2025 initState "L" "soon"
      (by decide) (by decide)⟩

/-! ## C6 — retry exhaustion and partial results -/

/-- C6, counterexample: the first Ribbon page contributes one collected
record, the second page's fetch exhausts its retries and `get_page`
raises; `main` does not catch the exception, so `save_to_master` is
never called and the partial results are discarded instead of being
passed downstream. -/
theorem c6_retry_counterexample :
    rbMain genIds nowStr cutoff2025 [] [some [rbGoodItem], none] = .error () ∧
      (rbPage genIds nowStr cutoff2025 { initState with requested := 1 } [rbGoodItem]).rows ≠ [] :=
  ⟨rfl, by decide⟩

/-- C6, amended: `get_page` retries a failed fetch, returning the first
success within three attempts and raising after three failures; but when
it raises, `main` propagates the exception, so the crawl aborts without
calling `save_to_master` and the records collected so far are discarded
rather than passed downstream. -/
theorem c6_retry_semantics :
    (∀ (p : List RbItem) (rest : List (Option (List RbItem))),
        rb_get_page (some p :: rest) = some p ∧
          rb_get_page (none :: some p :: rest) = some p ∧
          rb_get_page (none :: none :: some p :: rest) = some p) ∧
      (∀ rest : List (Option (List RbItem)),
        rb_get_page (none :: none :: none :: rest) = none) ∧
      (∀ (gen : Nat → String) (now : String) (cutoff : YMD) (master : List Row)
          (fetches : List (Option (List RbItem))),
        rbCrawl gen now cutoff initState fetches = .error () →
          rbMain gen now cutoff master fetches = .error ()) := by
  refine ⟨fun p rest => ⟨rfl, rfl, rfl⟩, fun rest => rfl, ?_⟩
  intro gen now cutoff master fetches h
  simp [rbMain, h]

/-- C6, witness: a concrete aborted crawl. -/
theorem c6_retry_semantics_witness :
    rbCrawl genIds nowStr cutoff2025 initState [some [rbGoodItem], none] = .error () ∧
      rbMain genIds nowStr cutoff2025 [] [some [rbGoodItem], none] = .error () :=
  ⟨rfl,
    c6_retry_semantics.2.2 genIds nowStr cutoff2025 [] [some [rbGoodItem], none] rfl⟩

/-! ## C10 — the AI-summarization pass -/

/-- C10, counterexample: a row whose `summary_ai` is the non-empty string
"done" but whose `impact_for_zhone` cell is the literal string "None" is
changed by the pass (its impact cell is normalized to "") as soon as any
other row is updated and the table is rewritten. -/
theorem c10_summarize_counterexample :
    rowSummarized.summary_ai ≠ "" ∧
      summarizePass fetchFix sumFix impFix [rowSummarized, rowPending] =
        [{ rowSummarized with impact_for_zhone := "" },
          { rowPending with summary_ai := "S", impact_for_zhone := "I" }] ∧
      ({ rowSummarized with impact_for_zhone := "" } : Row) ≠ rowSummarized := by
  decide

/-- C10, amended: the pass never selects for update a row whose cleaned
`summary_ai` is non-blank, and it never touches the six base columns of
any row; but besides writing `summary_ai`/`impact_for_zhone` on updated
rows it also normalizes literal "nan"/"NaN"/" "/"None" cells of the two
derived columns on every row, and that normalization is persisted
whenever some row is updated.  Each output row therefore keeps the
original base fields, and a row with a non-blank cleaned summary is
either the original row (no update happened anywhere) or its cleaned
version. -/
theorem c10_summarize_frame (fetchText : String → String)
    (sumF impF : String → String → String) (table : List Row) :
    List.Forall₂ (fun orig res =>
        res.id = orig.id ∧ res.company = orig.company ∧ res.title = orig.title ∧
          res.link = orig.link ∧ res.date = orig.date ∧
          res.fetched_at = orig.fetched_at ∧
          (pyStrip (cleanCell orig.summary_ai) ≠ "" →
            res = orig ∨ res = cleanRow orig))
      table (summarizePass fetchText sumF impF table) := by
  unfold summarizePass
  by_cases hup : (table.map cleanRow).any (rowUpdated fetchText) = true
  · rw [if_pos hup, List.map_map, List.forall₂_map_right_iff, List.forall₂_same]
    intro r _
    simp only [Function.comp_apply]
    unfold summarizeRow
    by_cases hs : pyStrip (cleanRow r).summary_ai ≠ ""
    · rw [if_pos hs]
      have hbase : (cleanRow r).id = r.id ∧ (cleanRow r).company = r.company ∧
          (cleanRow r).title = r.title ∧ (cleanRow r).link = r.link ∧
          (cleanRow r).date = r.date ∧ (cleanRow r).fetched_at = r.fetched_at :=
        ⟨rfl, rfl, rfl, rfl, rfl, rfl⟩
      exact ⟨hbase.1, hbase.2.1, hbase.2.2.1, hbase.2.2.2.1, hbase.2.2.2.2.1,
        hbase.2.2.2.2.2, fun _ => Or.inr rfl⟩
    · rw [if_neg hs]
      push_neg at hs
      have hclean : pyStrip (cleanCell r.summary_ai) = "" := hs
      refine ?_
      by_cases ht : fetchText (cleanRow r).link = ""
      · rw [if_pos ht]
        exact ⟨rfl, rfl, rfl, rfl, rfl, rfl, fun hcon => absurd hclean hcon⟩
      · rw [if_neg ht]
        exact ⟨rfl, rfl, rfl, rfl, rfl, rfl, fun hcon => absurd hclean hcon⟩
  · rw [if_neg hup, List.forall₂_same]
    intro r _
    exact ⟨rfl, rfl, rfl, rfl, rfl, rfl, fun _ => Or.inl rfl⟩

/-! ## C8 — totality of the date normalizer -/

theorem nokiaCore_cases (raw : String) :
    isISOFormat (nokiaCore raw) = true ∨ nokiaCore raw = pyStrip raw := by
  unfold nokiaCore
  cases h1 : strptimedbYCompact raw with
  | some d => exact Or.inl (isISOFormat_fmtISO d)
  | none =>
    cases h2 : strptimeBdY raw with
    | some d => exact Or.inl (isISOFormat_fmtISO d)
    | none =>
      cases h3 : strptimedBY raw with
      | some d => exact Or.inl (isISOFormat_fmtISO d)
      | none =>
        cases h4 : strptimeYmd raw with
        | some d => exact Or.inl (isISOFormat_fmtISO d)
        | none => exact Or.inr rfl

/-- C8, counterexample: getCienaPR2025.py's `normalize_date` is not
total.  On "February 30, 2025" every guarded format fails, `DATE_RE`
matches the whole text, and the unguarded
`datetime.strptime(m.group(0), "%B %d, %Y")` raises `ValueError` (day
out of range for the month), which propagates to the caller. -/
theorem c8_totality_counterexample :
    ciena_normalize_date "February 30, 2025" = none := by rfl

/-- C8, amended: the Ribbon normalizer never raises and returns either a
`YYYY-MM-DD` string or the stripped original; the Nokia normalizer never
raises and returns either a `YYYY-MM-DD` string, the original unchanged
(empty or "(No date)"), or the stripped segment before the first `|`
(not the trimmed full original); the Ciena normalizer can raise — on
"February 30, 2025" the embedded-substring fallback propagates
`ValueError`. -/
theorem c8_normalizer_totality :
    (∀ s, isISOFormat (ribbon_normalize_date s) = true ∨
        ribbon_normalize_date s = pyStrip s) ∧
      (∀ s, isISOFormat (nokia_normalize_date s) = true ∨
        nokia_normalize_date s = s ∨
        nokia_normalize_date s = pyStrip (beforeBar s)) ∧
      ciena_normalize_date "February 30, 2025" = none := by
  refine ⟨?_, ?_, by rfl⟩
  · intro s
    unfold ribbon_normalize_date
    cases hp : strptimeBdY (pyStrip s) with
    | some d => exact Or.inl (isISOFormat_fmtISO d)
    | none => exact Or.inr rfl
  · intro s
    unfold nokia_normalize_date
    by_cases hguard : (s = "" || s = "(No date)") = true
    · rw [if_pos hguard]
      exact Or.inr (Or.inl rfl)
    · rw [if_neg hguard]
      rcases nokiaCore_cases (pyStrip (beforeBar s)) with h | h
      · exact Or.inl h
      · rw [h, pyStrip_idem]
        exact Or.inr (Or.inr rfl)

/-! ## C9 — idempotence of the date normalizer -/

/-- A formatted ISO date is a fixpoint of the Ciena fallback chain: its
first format re-parses it to the same valid date. -/
theorem cienaCore_fmtISO {dd : YMD} (h : dd.Valid) :
    cienaCore (fmtISO dd) = some (fmtISO dd) := by
  unfold cienaCore
  rw [strptimeYmd_fmtISO h]

/-- C9, counterexample: getCalixPRLoadMoreDateOK.py's `normalize_date` is
not idempotent.  `"Septt".replace("Sept", "Sep")` yields "Sept", which no
format parses, so the function returns "Sept"; applying it again replaces
once more and returns "Sep" ≠ "Sept". -/
theorem c9_idempotence_counterexample :
    calix_normalize_date (calix_normalize_date "Septt") ≠
      calix_normalize_date "Septt" := by decide

/-- C9, amended: idempotence holds for getCienaPR2025.py's
`normalize_date` whenever it returns a value (a parsed output re-parses
by the ISO format, and a failed output is already stripped and fails the
same chain again); the Calix variant (also cited) is not idempotent,
because its `Sept`→`Sep` replacement can regenerate a `Sept` that is
rewritten again on the second pass. -/
theorem c9_normalize_idempotent (s r : String)
    (h : ciena_normalize_date s = some r) :
    ciena_normalize_date r = some r := by
  unfold ciena_normalize_date at h ⊢
  unfold cienaCore at h
  cases h1 : strptimeYmd (pyStrip s) with
  | some d =>
    simp only [h1, Option.some.injEq] at h
    subst h
    rw [pyStrip_fmtISO]
    exact cienaCore_fmtISO (strptimeYmd_valid h1)
  | none =>
    simp only [h1] at h
    cases h2 : strptimeYmdSlash (pyStrip s) with
    | some d =>
      simp only [h2, Option.some.injEq] at h
      subst h
      rw [pyStrip_fmtISO]
      exact cienaCore_fmtISO (parseYmdSep_valid h2)
    | none =>
      simp only [h2] at h
      cases h3 : strptimeBdY (pyStrip s) with
      | some d =>
        simp only [h3, Option.some.injEq] at h
        subst h
        rw [pyStrip_fmtISO]
        exact cienaCore_fmtISO (strptimeBdY_valid h3)
      | none =>
        simp only [h3] at h
        cases h4 : strptimebdY (pyStrip s) with
        | some d =>
          simp only [h4, Option.some.injEq] at h
          subst h
          rw [pyStrip_fmtISO]
          exact cienaCore_fmtISO (strptimebdY_valid h4)
        | none =>
          simp only [h4] at h
          cases h5 : dateRESearch (pyStrip s) with
          | some sub =>
            simp only [h5] at h
            cases h6 : strptimeBdY sub with
            | some d =>
              simp only [h6, Option.map_some', Option.some.injEq] at h
              subst h
              rw [pyStrip_fmtISO]
              exact cienaCore_fmtISO (strptimeBdY_valid h6)
            | none =>
              simp only [h6, Option.map_none'] at h
              exact Option.noConfusion h
          | none =>
            simp only [h5, Option.some.injEq] at h
            subst h
            rw [pyStrip_idem]
            unfold cienaCore
            simp only [h1, h2, h3, h4, h5]

/-- C9, witness: a successfully normalized date and its re-normalization. -/
theorem c9_normalize_idempotent_witness :
    ciena_normalize_date "March 5, 2025" = some "2025-03-05" ∧
      ciena_normalize_date "2025-03-05" = some "2025-03-05" :=
  ⟨by rfl, c9_normalize_idempotent "March 5, 2025" "2025-03-05" (by rfl)⟩

end Presswatch
